import Mathlib

/-!
Shallow embedding of plexdrive's read path: the streaming buffer
(src/buffer.go) and the chunk cache (src/cache.go).

The Go code is translated directly: machine integers become `Int`
(`int64`) and `Nat` (`uint64`) with the `uint64(offset)` cast made
explicit, byte slices become `List Nat`, fallible calls return
`Except`, and the in-place mutation of the `Buffer` and of the mongo
`chunks` collection becomes explicit state passing.  The external
collaborators (the Drive client and the mongo backend) are modelled
from their contracts in the spec, with failure flags so that the
error-handling paths of the Go code stay visible.
-/

deriving instance DecidableEq for Except

/-- Go's `uint64(x)` conversion applied to an `int64` value: two's
complement reinterpretation, i.e. reduction mod 2^64
(`uint64(offset) > b.object.Size` in buffer.go line 82). -/
def uint64OfInt64 (i : Int) : Nat := (i % (2 : Int) ^ 64).toNat

/-- `APIObject` (cache.go): a Google Drive file object. -/
structure APIObject where
  objectID : String
  name : String := ""
  isDir : Bool := false
  size : Nat
  lastModified : Nat := 0
  downloadURL : String := ""
  parents : List String := []
  canTrash : Bool := false
deriving Repr, DecidableEq

/-- `Chunk` (cache.go): a cached byte range of a remote object. -/
structure Chunk where
  id : String
  objectID : String
  offset : Int
  size : Int
  bytes : List Nat
deriving Repr, DecidableEq

/-- The cache state (cache.go): the mongo `chunks` collection, keyed by
the `_id` field, modelled as an association list, plus a backend flag
modelling a failing mongo write (`db.Upsert` returning an error). -/
structure Cache where
  chunks : List (String × Chunk)
  storeFails : Bool := false
deriving Repr, DecidableEq

/-- Point lookup by `_id` in the chunks collection
(`db.Find(bson.M{"_id": id}).One`). -/
def chunkFind (l : List (String × Chunk)) (k : String) : Option Chunk :=
  match l with
  | [] => none
  | p :: rest => if p.1 = k then some p.2 else chunkFind rest k

/-- Upsert by `_id` in the chunks collection (`db.Upsert`): replaces the
document with the given key, or appends it when absent. -/
def upsertChunk (l : List (String × Chunk)) (k : String) (v : Chunk) :
    List (String × Chunk) :=
  match l with
  | [] => [(k, v)]
  | p :: rest => if p.1 = k then (k, v) :: rest else p :: upsertChunk rest k v

/-- `Cache.StoreChunk` (cache.go lines 236-245): upserts the chunk by its
identifier; a backend write failure is surfaced as an error and leaves the
collection unchanged. -/
def Cache.StoreChunk (c : Cache) (ch : Chunk) : Except String Unit × Cache :=
  if c.storeFails then
    (Except.error ("Could not store chunk " ++ ch.id), c)
  else
    (Except.ok (), { c with chunks := upsertChunk c.chunks ch.id ch })

/-- `Cache.LoadChunk` (cache.go lines 248-257): point lookup by chunk
identifier; an absent chunk is an error result (Not-Found), not a crash. -/
def Cache.LoadChunk (c : Cache) (id : String) : Except String Chunk :=
  match chunkFind c.chunks id with
  | some ch => Except.ok ch
  | none => Except.error ("Could not get chunk " ++ id ++ " from cache")

/-- `Cache.ClearChunks` (cache.go lines 260-268): removes every document
of the chunks collection (`db.RemoveAll(bson.M{})`). -/
def Cache.ClearChunks (c : Cache) : Except String Unit × Cache :=
  (Except.ok (), { c with chunks := [] })

/-- A live byte-range stream handle (the `io.ReadCloser` returned by
`Drive.Open`): `pos` is the byte offset into the remote object that the
next read will yield, `closed` records that `Close` was called on the
handle, and `closeFails` models a handle whose `Close` errors. -/
structure ByteStream where
  pos : Int
  closed : Bool
  closeFails : Bool
deriving Repr, DecidableEq

/-- Modelled from the spec: the `Drive` client (`RemoteObjectClient`)
collaborator, whose `Open` lives outside src/.  Per the spec it "opens a
byte-range stream for the given object starting at the given byte
offset; the returned stream's next read yields the byte at that offset".
`content` gives each remote object's bytes by object identifier;
`openFails` models a transient open failure, and `closeFails` marks the
streams it hands out as failing to close. -/
structure Drive where
  content : String → List Nat
  openFails : Bool := false
  closeFails : Bool := false

/-- `Buffer` (buffer.go lines 12-19): one streaming session.  The
`client` and `cache` fields of the Go struct become explicit parameters
of the operations, so the session state is the cursor and the optional
stream handle. -/
structure Buffer where
  id : String
  object : APIObject
  offset : Int := 0
  stream : Option ByteStream := none
deriving Repr, DecidableEq

/-- `NewBuffer` (buffer.go lines 22-30): fresh session with zero cursor
and no stream; `r` stands for the random component of the session id. -/
def NewBuffer (object : APIObject) (r : Int) : Buffer :=
  { id := object.objectID ++ ":" ++ toString r, object := object }

/-- The two error shapes a `Read` can surface: `io.EOF` (End-of-Data)
and a wrapped hard I/O error. -/
inductive ReadError where
  | eof
  | ioError (msg : String)
deriving Repr, DecidableEq

/-- Result of `readFromAPI`: the returned slice or error, the updated
session, and how many `Drive.Open` calls were issued (0 or 1). -/
structure ReadResult where
  result : Except ReadError (List Nat)
  buffer : Buffer
  openCalls : Nat
deriving Repr, DecidableEq

/-- Result of `readBytes` / `Read`: as `ReadResult`, plus the updated
cache state and whether the network path (`readFromAPI`) ran at all. -/
structure ReadBytesResult where
  result : Except ReadError (List Nat)
  buffer : Buffer
  cache : Cache
  openCalls : Nat
  apiCalls : Nat
deriving Repr, DecidableEq

/-- Result of `Buffer.Close`: the error result, the session afterwards,
and how many times the underlying stream handle's `Close` was invoked. -/
structure CloseResult where
  result : Except String Unit
  buffer : Buffer
  closeCalls : Nat
deriving Repr, DecidableEq

/-- `shouldReopen` (buffer.go lines 114-116): reopen when no stream is
open or the requested offset is not the current cursor (`size` is taken
and ignored, as in the Go code). -/
def Buffer.shouldReopen (b : Buffer) (offset size : Int) : Bool :=
  b.stream.isNone || offset != b.offset

/-- One `stream.Read(buffer)` call (buffer.go line 104) on the modelled
byte-range stream: an open stream yields the next
`min(size, remaining)` bytes of the object's content (reaching the end
is `io.EOF`, which the caller treats as a normal short read); a read on
a closed handle is a hard error. -/
def streamRead (d : Drive) (objectID : String) (s : ByteStream) (size : Int) :
    Except String (List Nat × ByteStream) :=
  if s.closed then
    Except.error "read on closed stream"
  else
    let taken := ((d.content objectID).drop s.pos.toNat).take size.toNat
    Except.ok (taken, { s with pos := s.pos + taken.length })

/-- The tail of `readFromAPI` (buffer.go lines 103-111): allocate
`make([]byte, size)`, issue one `stream.Read`, advance the cursor by the
bytes actually read, and return the WHOLE buffer (zero-padded past `n`,
since the Go code returns `buffer`, not `buffer[:n]`).  The `none` arm
mirrors the nil-stream dereference; `shouldReopen` makes it
unreachable. -/
def Buffer.readStep (d : Drive) (b : Buffer) (offset size : Int) (opens : Nat) :
    ReadResult :=
  match b.stream with
  | none =>
    { result := Except.error (ReadError.ioError
        ("Could not read bytes at offset " ++ toString offset ++ " for stream " ++ b.id)),
      buffer := b, openCalls := opens }
  | some s =>
    match streamRead d b.object.objectID s size with
    | Except.error _ =>
      { result := Except.error (ReadError.ioError
          ("Could not read bytes at offset " ++ toString offset ++ " for stream " ++ b.id)),
        buffer := b, openCalls := opens }
    | Except.ok (bytes, s2) =>
      { result := Except.ok (bytes ++ List.replicate (size.toNat - bytes.length) 0),
        buffer := { b with offset := b.offset + bytes.length, stream := some s2 },
        openCalls := opens }

/-- `readFromAPI` (buffer.go lines 81-112): End-of-Data when
`uint64(offset)` exceeds the object's declared size; otherwise reopen
the stream if needed (closing any old handle best-effort, the close
error only logged) and read. -/
def Buffer.readFromAPI (d : Drive) (b : Buffer) (offset size : Int) : ReadResult :=
  if uint64OfInt64 offset > b.object.size then
    { result := Except.error ReadError.eof, buffer := b, openCalls := 0 }
  else if b.shouldReopen offset size then
    let bc : Buffer :=
      { b with stream := b.stream.map (fun s => { s with closed := true }) }
    if d.openFails then
      { result := Except.error (ReadError.ioError ("Could not open stream " ++ b.id)),
        buffer := bc, openCalls := 1 }
    else
      Buffer.readStep d
        { bc with
          stream := some { pos := offset, closed := false, closeFails := d.closeFails },
          offset := offset }
        offset size 1
  else
    Buffer.readStep d b offset size 0

/-- The cache key for a read (buffer.go line 56):
`fmt.Sprintf("%v:%v", b.object.ObjectID, offset)` — the requested size
takes no part in it. -/
def chunkID (objectID : String) (offset : Int) : String :=
  objectID ++ ":" ++ toString offset

/-- `readBytes` (buffer.go lines 55-79): consult the chunk cache first;
on a hit return the stored bytes untouched, on a miss fetch from the
API and store the result, ignoring the store's error entirely. -/
def Buffer.readBytes (d : Drive) (c : Cache) (b : Buffer) (offset size : Int) :
    ReadBytesResult :=
  match Cache.LoadChunk c (chunkID b.object.objectID offset) with
  | Except.ok chunk =>
    { result := Except.ok chunk.bytes, buffer := b, cache := c,
      openCalls := 0, apiCalls := 0 }
  | Except.error _ =>
    match (Buffer.readFromAPI d b offset size).result with
    | Except.error e =>
      { result := Except.error e,
        buffer := (Buffer.readFromAPI d b offset size).buffer, cache := c,
        openCalls := (Buffer.readFromAPI d b offset size).openCalls, apiCalls := 1 }
    | Except.ok bytes =>
      { result := Except.ok bytes,
        buffer := (Buffer.readFromAPI d b offset size).buffer,
        cache := (Cache.StoreChunk c
          { id := chunkID b.object.objectID offset, objectID := b.object.objectID,
            offset := offset, size := size, bytes := bytes }).2,
        openCalls := (Buffer.readFromAPI d b offset size).openCalls, apiCalls := 1 }

/-- `Read` (buffer.go lines 44-53): the preload is disabled in the
source, so `Read` is exactly `readBytes`. -/
def Buffer.Read (d : Drive) (c : Cache) (b : Buffer) (offset size : Int) :
    ReadBytesResult :=
  Buffer.readBytes d c b offset size

/-- `Close` (buffer.go lines 33-41): invoke the handle's `Close` when one
is present; a close failure is an error.  The Go code never clears
`b.stream`, so the handle stays in the session either way. -/
def Buffer.Close (b : Buffer) : CloseResult :=
  match b.stream with
  | none => { result := Except.ok (), buffer := b, closeCalls := 0 }
  | some s =>
    if s.closeFails then
      { result := Except.error ("Could not close stream " ++ b.id),
        buffer := b, closeCalls := 1 }
    else
      { result := Except.ok (),
        buffer := { b with stream := some { s with closed := true } },
        closeCalls := 1 }

/-- The session states reachable from a fresh `NewBuffer` by any
sequence of `Read` and `Close` operations, against arbitrary drive
behaviour at each step. -/
inductive Reachable : Buffer → Cache → Prop where
  | init (object : APIObject) (r : Int) (c : Cache) : Reachable (NewBuffer object r) c
  | read (d : Drive) (b : Buffer) (c : Cache) (offset size : Int) :
      Reachable b c →
      Reachable (Buffer.Read d c b offset size).buffer (Buffer.Read d c b offset size).cache
  | close (b : Buffer) (c : Cache) :
      Reachable b c → Reachable (Buffer.Close b).buffer c

/-- A concrete remote object of declared size 100 used by the concrete
instances below. -/
def exObject : APIObject := { objectID := "f", size := 100 }

/-- A concrete drive serving 100 bytes of value 7 for object `"f"`. -/
def exDrive : Drive := { content := fun oid => if oid = "f" then List.replicate 100 7 else [] }

/-- An empty chunk cache with a working backend. -/
def exCache : Cache := { chunks := [] }

/-- A concrete stored chunk for key `"f:0"`. -/
def exChunk1 : Chunk :=
  { id := "f:0", objectID := "f", offset := 0, size := 4, bytes := [1, 2, 3, 4] }

/-- A second chunk for the same key `"f:0"`, with a different payload. -/
def exChunk2 : Chunk :=
  { id := "f:0", objectID := "f", offset := 0, size := 2, bytes := [9, 9] }

/-- A session holding a live stream handle whose `Close` fails. -/
def exBufFailClose : Buffer :=
  { id := "f:1", object := exObject, offset := 0,
    stream := some { pos := 0, closed := false, closeFails := true } }

/-! ### Helper lemmas -/

theorem chunkFind_upsert_self (l : List (String × Chunk)) (k : String) (v : Chunk) :
    chunkFind (upsertChunk l k v) k = some v := by
  induction l with
  | nil => simp [upsertChunk, chunkFind]
  | cons p rest ih =>
    by_cases h : p.1 = k
    · simp [upsertChunk, h, chunkFind]
    · simp [upsertChunk, h, chunkFind, ih]

theorem readStep_openCalls (d : Drive) (b : Buffer) (offset size : Int) (n : Nat) :
    (Buffer.readStep d b offset size n).openCalls = n := by
  unfold Buffer.readStep
  split
  · rfl
  · split
    · rfl
    · rfl

theorem readStep_object (d : Drive) (b : Buffer) (offset size : Int) (n : Nat) :
    (Buffer.readStep d b offset size n).buffer.object = b.object := by
  unfold Buffer.readStep
  split
  · rfl
  · split
    · rfl
    · rfl

theorem readStep_result_ne_eof (d : Drive) (b : Buffer) (offset size : Int) (n : Nat) :
    (Buffer.readStep d b offset size n).result ≠ Except.error ReadError.eof := by
  unfold Buffer.readStep
  split
  · simp
  · split
    · simp
    · simp

theorem readStep_ok_length (d : Drive) (b : Buffer) (offset size : Int) (n : Nat)
    (bs : List Nat) (h : (Buffer.readStep d b offset size n).result = Except.ok bs) :
    bs.length = size.toNat := by
  unfold Buffer.readStep at h
  split at h
  · simp at h
  · rename_i s heq
    split at h
    · simp at h
    · rename_i bytes s2x heq2
      simp at h
      unfold streamRead at heq2
      split at heq2
      · simp at heq2
      · simp only [Except.ok.injEq, Prod.mk.injEq] at heq2
        obtain ⟨hb, hs2x⟩ := heq2
        rw [← h, ← hb]
        have hle : (List.take size.toNat
            (List.drop s.pos.toNat (d.content b.object.objectID))).length ≤ size.toNat :=
          List.length_take_le _ _
        simp only [List.length_append, List.length_replicate]
        omega

theorem readStep_ok_stream (d : Drive) (b : Buffer) (offset size : Int) (n : Nat)
    (bs : List Nat) (h : (Buffer.readStep d b offset size n).result = Except.ok bs) :
    (Buffer.readStep d b offset size n).buffer.stream.isSome = true := by
  unfold Buffer.readStep at h ⊢
  split at h
  · simp at h
  · rename_i s heq
    unfold streamRead at h ⊢
    split at h
    · simp at h
    · simp [heq]

theorem readStep_cursor (d : Drive) (b : Buffer) (offset size : Int) (n : Nat)
    (h : ∀ s, b.stream = some s → b.offset = s.pos) :
    ∀ s2, (Buffer.readStep d b offset size n).buffer.stream = some s2 →
      (Buffer.readStep d b offset size n).buffer.offset = s2.pos := by
  unfold Buffer.readStep
  split
  · exact h
  · rename_i s heq
    split
    · exact h
    · rename_i bytes s2x heq2
      intro s2 hs2
      simp only [Option.some.injEq] at hs2
      unfold streamRead at heq2
      split at heq2
      · simp at heq2
      · simp only [Except.ok.injEq, Prod.mk.injEq] at heq2
        obtain ⟨hb, hs2x⟩ := heq2
        subst hs2
        rw [← hs2x]
        simp [h s heq, hb]

theorem readFromAPI_openCalls (d : Drive) (b : Buffer) (offset size : Int)
    (hofs : uint64OfInt64 offset ≤ b.object.size) :
    (Buffer.readFromAPI d b offset size).openCalls
      = if b.shouldReopen offset size then 1 else 0 := by
  unfold Buffer.readFromAPI
  rw [if_neg (by omega)]
  split
  · split
    · rfl
    · exact readStep_openCalls _ _ _ _ _
  · exact readStep_openCalls _ _ _ _ _

theorem readFromAPI_object (d : Drive) (b : Buffer) (offset size : Int) :
    (Buffer.readFromAPI d b offset size).buffer.object = b.object := by
  unfold Buffer.readFromAPI
  split
  · rfl
  · split
    · split
      · rfl
      · exact readStep_object ..
    · exact readStep_object ..

theorem readFromAPI_eof_iff (d : Drive) (b : Buffer) (offset size : Int) :
    ((Buffer.readFromAPI d b offset size).result = Except.error ReadError.eof)
      ↔ b.object.size < uint64OfInt64 offset := by
  unfold Buffer.readFromAPI
  split
  · rename_i h1
    simp
    omega
  · rename_i h1
    have h1n : ¬ b.object.size < uint64OfInt64 offset := by omega
    simp only [h1n, iff_false]
    split
    · split
      · simp
      · exact readStep_result_ne_eof _ _ _ _ _
    · exact readStep_result_ne_eof _ _ _ _ _

theorem readFromAPI_ok_length (d : Drive) (b : Buffer) (offset size : Int)
    (bs : List Nat) (h : (Buffer.readFromAPI d b offset size).result = Except.ok bs) :
    bs.length = size.toNat := by
  unfold Buffer.readFromAPI at h
  split at h
  · simp at h
  · split at h
    · split at h
      · simp at h
      · exact readStep_ok_length _ _ _ _ _ _ h
    · exact readStep_ok_length _ _ _ _ _ _ h

theorem readFromAPI_ok_stream (d : Drive) (b : Buffer) (offset size : Int)
    (bs : List Nat) (h : (Buffer.readFromAPI d b offset size).result = Except.ok bs) :
    (Buffer.readFromAPI d b offset size).buffer.stream.isSome = true := by
  unfold Buffer.readFromAPI at h ⊢
  split at h
  · simp at h
  · split at h
    · split at h
      · simp at h
      · rename_i h1 h2 h3
        rw [if_neg h1, if_pos h2, if_neg h3]
        exact readStep_ok_stream _ _ _ _ _ _ h
    · rename_i h1 h2
      rw [if_neg h1, if_neg h2]
      exact readStep_ok_stream _ _ _ _ _ _ h

theorem loadChunk_of_toOption_none (c : Cache) (id : String)
    (h : (Cache.LoadChunk c id).toOption = none) :
    Cache.LoadChunk c id = Except.error ("Could not get chunk " ++ id ++ " from cache") := by
  unfold Cache.LoadChunk at h ⊢
  split at h
  · rename_i ch heq
    simp [Except.toOption] at h
  · rfl

theorem storeChunk_ok (c : Cache) (ch : Chunk) (hsf : c.storeFails = false) :
    Cache.StoreChunk c ch
      = (Except.ok (), { c with chunks := upsertChunk c.chunks ch.id ch }) := by
  unfold Cache.StoreChunk
  rw [hsf]
  simp

theorem loadChunk_upsert (l : List (String × Chunk)) (f : Bool) (v : Chunk) :
    Cache.LoadChunk { chunks := upsertChunk l v.id v, storeFails := f } v.id
      = Except.ok v := by
  unfold Cache.LoadChunk
  rw [chunkFind_upsert_self]

theorem readFromAPI_cursor (d : Drive) (b : Buffer) (offset size : Int)
    (h : ∀ s, b.stream = some s → b.offset = s.pos) :
    ∀ s2, (Buffer.readFromAPI d b offset size).buffer.stream = some s2 →
      (Buffer.readFromAPI d b offset size).buffer.offset = s2.pos := by
  unfold Buffer.readFromAPI
  split
  · exact h
  · split
    · split
      · intro s2 hs2
        simp only [Option.map_eq_some'] at hs2
        obtain ⟨s0, hs0, hmap⟩ := hs2
        simp only [← hmap]
        exact h s0 hs0
      · apply readStep_cursor
        intro s hs
        simp at hs
        rw [← hs]
    · exact readStep_cursor _ _ _ _ _ h

theorem readBytes_miss (d : Drive) (c : Cache) (b : Buffer) (offset size : Int)
    (hmiss : (Cache.LoadChunk c (chunkID b.object.objectID offset)).toOption = none) :
    (Buffer.readBytes d c b offset size).result = (Buffer.readFromAPI d b offset size).result
    ∧ (Buffer.readBytes d c b offset size).buffer = (Buffer.readFromAPI d b offset size).buffer
    ∧ (Buffer.readBytes d c b offset size).openCalls
        = (Buffer.readFromAPI d b offset size).openCalls
    ∧ (Buffer.readBytes d c b offset size).apiCalls = 1 := by
  have hl := loadChunk_of_toOption_none _ _ hmiss
  unfold Buffer.readBytes
  rw [hl]
  cases hr : (Buffer.readFromAPI d b offset size).result with
  | error e => simp [hr]
  | ok bytes => simp [hr]

theorem read_hit_eval (d : Drive) (c : Cache) (b : Buffer) (offset size : Int) (ch : Chunk)
    (hhit : Cache.LoadChunk c (chunkID b.object.objectID offset) = Except.ok ch) :
    Buffer.Read d c b offset size =
      { result := Except.ok ch.bytes, buffer := b, cache := c,
        openCalls := 0, apiCalls := 0 } := by
  unfold Buffer.Read Buffer.readBytes
  rw [hhit]

theorem read_object (d : Drive) (c : Cache) (b : Buffer) (offset size : Int) :
    (Buffer.Read d c b offset size).buffer.object = b.object := by
  unfold Buffer.Read Buffer.readBytes
  split
  · rfl
  · split
    · simp [readFromAPI_object]
    · simp [readFromAPI_object]

theorem read_ok_load (d : Drive) (c : Cache) (b : Buffer) (offset size : Int) (bs : List Nat)
    (hsf : c.storeFails = false)
    (hok : (Buffer.Read d c b offset size).result = Except.ok bs) :
    ∃ ch, Cache.LoadChunk (Buffer.Read d c b offset size).cache
        (chunkID b.object.objectID offset) = Except.ok ch ∧ ch.bytes = bs := by
  cases hl : Cache.LoadChunk c (chunkID b.object.objectID offset) with
  | ok ch =>
    rw [read_hit_eval d c b offset size ch hl] at hok ⊢
    simp at hok ⊢
    exact ⟨ch, hl, hok⟩
  | error e =>
    have hmiss : (Cache.LoadChunk c (chunkID b.object.objectID offset)).toOption = none := by
      rw [hl]; rfl
    unfold Buffer.Read Buffer.readBytes at hok ⊢
    rw [hl] at hok ⊢
    cases hr : (Buffer.readFromAPI d b offset size).result with
    | error e2 => simp [hr] at hok
    | ok bytes =>
      simp only [hr] at hok ⊢
      simp at hok
      rw [storeChunk_ok c _ hsf]
      simp
      subst hok
      refine ⟨{ id := chunkID b.object.objectID offset, objectID := b.object.objectID,
                offset := offset, size := size, bytes := bytes }, ?_, rfl⟩
      exact loadChunk_upsert c.chunks c.storeFails
        { id := chunkID b.object.objectID offset, objectID := b.object.objectID,
          offset := offset, size := size, bytes := bytes }

theorem readFromAPI_at_cursor (d : Drive) (b : Buffer) (size2 : Int)
    (hs : b.stream.isSome = true) :
    (Buffer.readFromAPI d b b.offset size2).openCalls = 0 := by
  unfold Buffer.readFromAPI
  split
  · rfl
  · have hre : b.shouldReopen b.offset size2 = false := by
      cases hb : b.stream with
      | none => rw [hb] at hs; simp at hs
      | some s => simp [Buffer.shouldReopen, hb]
    rw [if_neg]
    · exact readStep_openCalls _ _ _ _ _
    · rw [hre]
      simp

theorem read_at_cursor_no_open (d : Drive) (c : Cache) (b : Buffer) (size2 : Int)
    (hs : b.stream.isSome = true) :
    (Buffer.Read d c b b.offset size2).openCalls = 0 := by
  unfold Buffer.Read Buffer.readBytes
  split
  · rfl
  · cases hr : (Buffer.readFromAPI d b b.offset size2).result with
    | error e => simp [hr, readFromAPI_at_cursor d b size2 hs]
    | ok bytes => simp [hr, readFromAPI_at_cursor d b size2 hs]

theorem readBytes_cursor (d : Drive) (c : Cache) (b : Buffer) (offset size : Int)
    (h : ∀ s, b.stream = some s → b.offset = s.pos) :
    ∀ s2, (Buffer.readBytes d c b offset size).buffer.stream = some s2 →
      (Buffer.readBytes d c b offset size).buffer.offset = s2.pos := by
  unfold Buffer.readBytes
  split
  · exact h
  · split
    · exact readFromAPI_cursor d b offset size h
    · exact readFromAPI_cursor d b offset size h

/-! ### The claims -/

/-- C1 (amended): on a cache miss, `Read` yields the End-of-Data signal
(`io.EOF`) exactly when `uint64(offset)` is STRICTLY greater than the
object's declared size — the code's boundary check is strict, so a read
at offset exactly `size_of_object` is not End-of-Data but is served from
the stream like an in-range read. -/
theorem C1_end_of_data_boundary (d : Drive) (c : Cache) (b : Buffer) (offset size : Int)
    (hmiss : (Cache.LoadChunk c (chunkID b.object.objectID offset)).toOption = none) :
    (Buffer.Read d c b offset size).result = Except.error ReadError.eof
      ↔ b.object.size < uint64OfInt64 offset := by
  unfold Buffer.Read
  rw [(readBytes_miss d c b offset size hmiss).1]
  exact readFromAPI_eof_iff d b offset size

/-- C1 counterexample: with a 100-byte object, the cache-miss
`Read(100, 10)` at offset exactly the object's size succeeds with a
zero-padded 10-byte buffer instead of failing with End-of-Data. -/
theorem C1_counterexample :
    (Buffer.Read exDrive exCache (NewBuffer exObject 0) 100 10).result
        = Except.ok (List.replicate 10 0)
    ∧ (Buffer.Read exDrive exCache (NewBuffer exObject 0) 100 10).result
        ≠ Except.error ReadError.eof := by
  exact ⟨by decide, by decide⟩

/-- C1 witness: a cache-miss read strictly past the object's size
(offset 101 on a 100-byte object) does yield End-of-Data. -/
theorem C1_witness :
    (Buffer.Read exDrive exCache (NewBuffer exObject 0) 101 10).result
      = Except.error ReadError.eof :=
  (C1_end_of_data_boundary exDrive exCache (NewBuffer exObject 0) 101 10
    (by decide)).mpr (by decide)

/-- C2 (evaluation at the failing input): with a 100-byte object, the
cache-miss `Read(95, 10)` reaches end-of-stream after 5 bytes but
returns a full 10-byte slice — the 5 bytes actually read followed by 5
zero bytes — because `readFromAPI` returns the whole `buffer`, not
`buffer[:n]` (buffer.go line 111). -/
theorem C2_padded_tail_eval :
    (Buffer.Read exDrive exCache (NewBuffer exObject 0) 95 10).result
        = Except.ok (List.replicate 5 7 ++ List.replicate 5 0)
    ∧ (List.replicate 5 7 ++ List.replicate 5 0).length = 10 := by
  exact ⟨by decide, by decide⟩

/-- C3: on a cache miss that passes the End-of-Data check, exactly one
`Drive.Open` call is issued when no stream is open or the cursor
differs from the requested offset, and none otherwise; moreover, after
any successful such read, a follow-up read at the cursor left by the
first read issues no `Open` call, so consecutive sequential reads share
a single `Open`. -/
theorem C3_reopen_policy (d : Drive) (c : Cache) (b : Buffer) (offset size : Int)
    (hmiss : (Cache.LoadChunk c (chunkID b.object.objectID offset)).toOption = none)
    (hofs : uint64OfInt64 offset ≤ b.object.size) :
    (Buffer.Read d c b offset size).openCalls
        = (if b.stream.isNone || offset != b.offset then 1 else 0)
    ∧ (∀ size2 : Int, ((Buffer.Read d c b offset size).result).toOption.isSome = true →
        (Buffer.Read d (Buffer.Read d c b offset size).cache
            (Buffer.Read d c b offset size).buffer
            (Buffer.Read d c b offset size).buffer.offset size2).openCalls = 0) := by
  constructor
  · unfold Buffer.Read
    rw [(readBytes_miss d c b offset size hmiss).2.2.1,
      readFromAPI_openCalls d b offset size hofs]
    rfl
  · intro size2 hok
    have hmr := readBytes_miss d c b offset size hmiss
    have hok2 : ∃ bs, (Buffer.readFromAPI d b offset size).result = Except.ok bs := by
      unfold Buffer.Read at hok
      rw [hmr.1] at hok
      cases hx : (Buffer.readFromAPI d b offset size).result with
      | error e => rw [hx] at hok; simp [Except.toOption] at hok
      | ok bs => exact ⟨bs, rfl⟩
    obtain ⟨bs, hbs⟩ := hok2
    have hstream := readFromAPI_ok_stream d b offset size bs hbs
    apply read_at_cursor_no_open
    show (Buffer.readBytes d c b offset size).buffer.stream.isSome = true
    rw [hmr.2.1]
    exact hstream

/-- C3 witness: from a fresh session (object size 100), `Read(0, 50)`
issues exactly one `Open`, and the follow-up read at the cursor it left
(offset 50) issues none. -/
theorem C3_witness :
    (Buffer.Read exDrive exCache (NewBuffer exObject 0) 0 50).openCalls = 1
    ∧ (Buffer.Read exDrive (Buffer.Read exDrive exCache (NewBuffer exObject 0) 0 50).cache
        (Buffer.Read exDrive exCache (NewBuffer exObject 0) 0 50).buffer
        (Buffer.Read exDrive exCache (NewBuffer exObject 0) 0 50).buffer.offset 50).openCalls
      = 0 := by
  have h := C3_reopen_policy exDrive exCache (NewBuffer exObject 0) 0 50 (by decide) (by decide)
  refine ⟨?_, h.2 50 (by decide)⟩
  rw [h.1]
  decide

/-- C4: a cache hit returns the stored chunk's bytes with no network
activity and no mutation of the session or cache; consequently once a
successful read has populated the cache (working backend), a repeated
read at the same object and offset returns the identical bytes with
zero network calls. -/
theorem C4_cache_precedence :
    (∀ (d : Drive) (c : Cache) (b : Buffer) (offset size : Int) (ch : Chunk),
        Cache.LoadChunk c (chunkID b.object.objectID offset) = Except.ok ch →
        (Buffer.Read d c b offset size).result = Except.ok ch.bytes
        ∧ (Buffer.Read d c b offset size).buffer = b
        ∧ (Buffer.Read d c b offset size).cache = c
        ∧ (Buffer.Read d c b offset size).apiCalls = 0
        ∧ (Buffer.Read d c b offset size).openCalls = 0)
    ∧ (∀ (d d2 : Drive) (c : Cache) (b : Buffer) (offset size : Int) (bs : List Nat),
        c.storeFails = false →
        (Buffer.Read d c b offset size).result = Except.ok bs →
        (Buffer.Read d2 (Buffer.Read d c b offset size).cache
            (Buffer.Read d c b offset size).buffer offset size).result = Except.ok bs
        ∧ (Buffer.Read d2 (Buffer.Read d c b offset size).cache
            (Buffer.Read d c b offset size).buffer offset size).apiCalls = 0) := by
  constructor
  · intro d c b offset size ch hhit
    rw [read_hit_eval d c b offset size ch hhit]
    exact ⟨rfl, rfl, rfl, rfl, rfl⟩
  · intro d d2 c b offset size bs hsf hok
    obtain ⟨ch, hload, hbytes⟩ := read_ok_load d c b offset size bs hsf hok
    have hobj := read_object d c b offset size
    have hload2 : Cache.LoadChunk (Buffer.Read d c b offset size).cache
        (chunkID (Buffer.Read d c b offset size).buffer.object.objectID offset)
        = Except.ok ch := by rw [hobj]; exact hload
    rw [read_hit_eval d2 _ _ offset size ch hload2]
    exact ⟨congrArg Except.ok hbytes, rfl⟩

/-- C4 witness: `Read(0, 50)` populates the cache, and the repeated
`Read(0, 50)` returns the same 50 bytes with the network path never
taken. -/
theorem C4_witness :
    (Buffer.Read exDrive (Buffer.Read exDrive exCache (NewBuffer exObject 0) 0 50).cache
        (Buffer.Read exDrive exCache (NewBuffer exObject 0) 0 50).buffer 0 50).result
      = Except.ok (List.replicate 50 7)
    ∧ (Buffer.Read exDrive (Buffer.Read exDrive exCache (NewBuffer exObject 0) 0 50).cache
        (Buffer.Read exDrive exCache (NewBuffer exObject 0) 0 50).buffer 0 50).apiCalls
      = 0 :=
  C4_cache_precedence.2 exDrive exDrive exCache (NewBuffer exObject 0) 0 50
    (List.replicate 50 7) (by decide) (by decide)

/-- C5: storing a chunk and loading the same identifier returns the
stored chunk unchanged (byte-identical payload), and a second store
under the same identifier fully replaces the first, so the load returns
the most recently stored chunk. -/
theorem C5_store_load_round_trip (c : Cache) (ch1 ch2 : Chunk)
    (hsf : c.storeFails = false) (hid : ch1.id = ch2.id) :
    Cache.LoadChunk (Cache.StoreChunk c ch1).2 ch1.id = Except.ok ch1
    ∧ Cache.LoadChunk (Cache.StoreChunk (Cache.StoreChunk c ch1).2 ch2).2 ch1.id
      = Except.ok ch2 := by
  constructor
  · rw [storeChunk_ok c ch1 hsf]
    exact loadChunk_upsert c.chunks c.storeFails ch1
  · rw [storeChunk_ok c ch1 hsf]
    have hsf2 : ({ c with chunks := upsertChunk c.chunks ch1.id ch1 } : Cache).storeFails
        = false := hsf
    rw [storeChunk_ok _ ch2 hsf2, hid]
    exact loadChunk_upsert (upsertChunk c.chunks ch2.id ch1) c.storeFails ch2

/-- C5 witness: storing two chunks under the identifier `"f:0"` and
loading it returns the second chunk. -/
theorem C5_witness :
    Cache.LoadChunk (Cache.StoreChunk (Cache.StoreChunk exCache exChunk1).2 exChunk2).2
        exChunk1.id = Except.ok exChunk2 :=
  (C5_store_load_round_trip exCache exChunk1 exChunk2 (by decide) (by decide)).2

/-- C6: in every reachable session state (any sequence of `Read` and
`Close` operations from a fresh session), if the stream handle is
non-null then the cursor equals the stream's position — the byte offset
the next read from that handle yields.  The cursor is set to the
requested offset on every reopen and advanced by exactly the bytes
consumed on every network read. -/
theorem C6_cursor_invariant (b : Buffer) (c : Cache) (h : Reachable b c) :
    ∀ s, b.stream = some s → b.offset = s.pos := by
  induction h with
  | init object r c0 =>
    intro s hs
    simp [NewBuffer] at hs
  | read d b0 c0 offset size hr ih =>
    exact readBytes_cursor d c0 b0 offset size ih
  | close b0 c0 hr ih =>
    intro s hs
    cases hb : b0.stream with
    | none => simp [Buffer.Close, hb] at hs
    | some s0 =>
      rcases Bool.eq_false_or_eq_true s0.closeFails with hcf | hcf
      · simp [Buffer.Close, hb, hcf] at hs ⊢
        rw [← hs]
        exact ih s0 hb
      · simp [Buffer.Close, hb, hcf] at hs ⊢
        rw [← hs]
        exact ih s0 hb

/-- C6 witness: after one read of 10 bytes from offset 0, the reachable
state's cursor is 10 — the position of its live stream handle. -/
theorem C6_witness :
    (Buffer.Read exDrive exCache (NewBuffer exObject 0) 0 10).buffer.offset = 10 := by
  have h := C6_cursor_invariant
      (Buffer.Read exDrive exCache (NewBuffer exObject 0) 0 10).buffer
      (Buffer.Read exDrive exCache (NewBuffer exObject 0) 0 10).cache
      (Reachable.read exDrive (NewBuffer exObject 0) exCache 0 10
        (Reachable.init exObject 0 exCache))
  exact h { pos := 10, closed := false, closeFails := false } (by decide)

/-- C7: the result and resulting session of a read are independent of
whether the chunk-store write fails (its error is ignored by
`readBytes`), and on a cache miss whose network fetch succeeds the read
returns the fetched bytes even when the backend write fails. -/
theorem C7_best_effort_store :
    (∀ (d : Drive) (l : List (String × Chunk)) (f1 f2 : Bool) (b : Buffer) (offset size : Int),
        (Buffer.Read d { chunks := l, storeFails := f1 } b offset size).result
          = (Buffer.Read d { chunks := l, storeFails := f2 } b offset size).result
        ∧ (Buffer.Read d { chunks := l, storeFails := f1 } b offset size).buffer
          = (Buffer.Read d { chunks := l, storeFails := f2 } b offset size).buffer)
    ∧ (∀ (d : Drive) (c : Cache) (b : Buffer) (offset size : Int) (bs : List Nat),
        (Cache.LoadChunk c (chunkID b.object.objectID offset)).toOption = none →
        (Buffer.readFromAPI d b offset size).result = Except.ok bs →
        (Buffer.Read d c b offset size).result = Except.ok bs) := by
  constructor
  · intro d l f1 f2 b offset size
    unfold Buffer.Read Buffer.readBytes
    cases hf : chunkFind l (chunkID b.object.objectID offset) with
    | some ch => simp [Cache.LoadChunk, hf]
    | none =>
      simp only [Cache.LoadChunk, hf]
      cases hr : (Buffer.readFromAPI d b offset size).result with
      | error e => simp [hr]
      | ok bytes => simp [hr]
  · intro d c b offset size bs hmiss hapi
    unfold Buffer.Read
    rw [(readBytes_miss d c b offset size hmiss).1, hapi]

/-- C7 witness: with a failing chunk-store backend, the cache-miss
`Read(0, 50)` still returns the 50 fetched bytes with no error. -/
theorem C7_witness :
    (Buffer.Read exDrive { chunks := [], storeFails := true }
        (NewBuffer exObject 0) 0 50).result = Except.ok (List.replicate 50 7) :=
  C7_best_effort_store.2 exDrive { chunks := [], storeFails := true }
    (NewBuffer exObject 0) 0 50 (List.replicate 50 7) (by decide) (by decide)

/-- C8: `ClearChunks` succeeds and unconditionally empties the chunks
collection, after which `LoadChunk` for every identifier — in
particular every previously stored one — returns the Not-Found error
result, not a crash. -/
theorem C8_clear_all (c : Cache) (id : String) :
    (Cache.ClearChunks c).1 = Except.ok ()
    ∧ (Cache.ClearChunks c).2.chunks = []
    ∧ Cache.LoadChunk (Cache.ClearChunks c).2 id
        = Except.error ("Could not get chunk " ++ id ++ " from cache") :=
  ⟨rfl, rfl, rfl⟩

/-- C9 counterexample: for a session whose handle fails to close, the
first `Close` reports the error but leaves the handle in place
(`b.stream` is never cleared), and a second `Close` call invokes the
underlying handle's `Close` again — contradicting the claim that the
close is not retried on a subsequent call. -/
theorem C9_counterexample :
    (Buffer.Close exBufFailClose).result = Except.error "Could not close stream f:1"
    ∧ (Buffer.Close exBufFailClose).buffer.stream.isSome = true
    ∧ (Buffer.Close (Buffer.Close exBufFailClose).buffer).closeCalls = 1 := by
  exact ⟨by decide, by decide, by decide⟩

/-- C9 (amended): `Close` succeeds and touches nothing when no stream is
present; with a live handle it invokes the handle's `Close` exactly
once, reporting an error on failure — but the handle is never cleared
from the session, so a subsequent `Close` call attempts the underlying
close again. -/
theorem C9_close_behavior (b : Buffer) :
    (b.stream = none →
      (Buffer.Close b).result = Except.ok () ∧ (Buffer.Close b).closeCalls = 0
      ∧ (Buffer.Close b).buffer = b)
    ∧ (∀ s, b.stream = some s →
        (Buffer.Close b).closeCalls = 1
        ∧ (s.closeFails = true →
            (Buffer.Close b).result = Except.error ("Could not close stream " ++ b.id)
            ∧ (Buffer.Close b).buffer = b)
        ∧ (s.closeFails = false →
            (Buffer.Close b).result = Except.ok ()
            ∧ (Buffer.Close b).buffer
              = { b with stream := some { s with closed := true } })) := by
  constructor
  · intro hb
    simp [Buffer.Close, hb]
  · intro s hb
    rcases Bool.eq_false_or_eq_true s.closeFails with hcf | hcf
    · simp [Buffer.Close, hb, hcf]
    · simp [Buffer.Close, hb, hcf]

/-- C9 witness: applying the close behaviour to the concrete session
with a failing handle. -/
theorem C9_witness :
    (Buffer.Close exBufFailClose).closeCalls = 1
    ∧ (Buffer.Close exBufFailClose).result
        = Except.error ("Could not close stream " ++ exBufFailClose.id)
    ∧ (Buffer.Close exBufFailClose).buffer = exBufFailClose := by
  have h := (C9_close_behavior exBufFailClose).2
      { pos := 0, closed := false, closeFails := true } rfl
  exact ⟨h.1, (h.2.1 rfl).1, (h.2.1 rfl).2⟩

/-- C10: the cache key is derived from the object identifier and offset
only, never from the size — after a cache-miss `Read(offset, size1)`
succeeds and populates the cache, a read at the same offset with ANY
`size2` returns the bytes cached by the first read, whose length is
governed by `size1`, not `size2`. -/
theorem C10_key_ignores_size (d d2 : Drive) (c : Cache) (b : Buffer)
    (offset size1 size2 : Int) (bs : List Nat)
    (hmiss : (Cache.LoadChunk c (chunkID b.object.objectID offset)).toOption = none)
    (hsf : c.storeFails = false)
    (hok : (Buffer.Read d c b offset size1).result = Except.ok bs) :
    (Buffer.Read d2 (Buffer.Read d c b offset size1).cache
        (Buffer.Read d c b offset size1).buffer offset size2).result = Except.ok bs
    ∧ bs.length = size1.toNat := by
  obtain ⟨ch, hload, hbytes⟩ := read_ok_load d c b offset size1 bs hsf hok
  constructor
  · have hobj := read_object d c b offset size1
    have hload2 : Cache.LoadChunk (Buffer.Read d c b offset size1).cache
        (chunkID (Buffer.Read d c b offset size1).buffer.object.objectID offset)
        = Except.ok ch := by rw [hobj]; exact hload
    rw [read_hit_eval d2 _ _ offset size2 ch hload2]
    exact congrArg Except.ok hbytes
  · have h1 := (readBytes_miss d c b offset size1 hmiss).1
    unfold Buffer.Read at hok
    rw [h1] at hok
    exact readFromAPI_ok_length d b offset size1 bs hok

/-- C10 witness: `Read(0, 50)` caches 50 bytes; the follow-up
`Read(0, 10)` at the same offset returns those 50 cached bytes, not 10
bytes. -/
theorem C10_witness :
    (Buffer.Read exDrive (Buffer.Read exDrive exCache (NewBuffer exObject 0) 0 50).cache
        (Buffer.Read exDrive exCache (NewBuffer exObject 0) 0 50).buffer 0 10).result
      = Except.ok (List.replicate 50 7)
    ∧ (List.replicate 50 7).length = (50 : Int).toNat :=
  C10_key_ignores_size exDrive exDrive exCache (NewBuffer exObject 0) 0 50 10
    (List.replicate 50 7) (by decide) (by decide) (by decide)
